import Mathlib

/-
  Verification of the mysqldump value-serialization and statement-replay engine.

  Shallow embedding of the Go source (dump.go).  Go strings are modelled as
  `List Char`; driver-level raw values (`interface` values scanned from a row)
  are modelled by the closed sum `GoValue`; fallible code returns `Except` or
  an explicit result sum.  Concurrency in the streaming row writer is modelled
  as a small-step transition system.
-/

set_option autoImplicit false

namespace Mysqldump

/-- Convert a Lean string literal to the `List Char` representation used for
Go strings throughout this development. -/
def str (s : String) : List Char := s.toList

/-- Go `strings.HasPrefix s pre`. -/
def goHasPre (s pre : List Char) : Bool := pre.isPrefixOf s

/-- Go `strings.TrimPrefix s pre`: drop `pre` when it starts `s`. -/
def goTrimPre (s pre : List Char) : List Char :=
  if pre.isPrefixOf s then List.drop pre.length s else s

/-- Go `strings.TrimSuffix s suf`: drop `suf` when it ends `s`. -/
def goTrimSuf (s suf : List Char) : List Char :=
  if suf.isSuffixOf s then List.take (s.length - suf.length) s else s

/-- Go `strings.Index s sub`: index of the first occurrence of `sub` in `s`,
`none` when absent (Go returns -1). -/
def goIndex (s sub : List Char) : Option Nat :=
  match s with
  | [] => if sub = [] then some 0 else none
  | c :: t =>
      if sub.isPrefixOf (c :: t) then some 0
      else (goIndex t sub).map (fun n => n + 1)

/-- Go `strings.Replace s old new -1` specialized to a one-character
pattern `old`: every occurrence of `c0` is replaced by `rep`. -/
def goReplaceCh (c0 : Char) (rep : List Char) : List Char → List Char
  | [] => []
  | c :: t => if c = c0 then rep ++ goReplaceCh c0 rep t else c :: goReplaceCh c0 rep t

/-- Go `strings.Replace s "UNSIGNED" "" -1`: left-to-right removal of every
occurrence of the eight-character pattern, continuing after each match. -/
def stripUnsigned : List Char → List Char
  | 'U' :: 'N' :: 'S' :: 'I' :: 'G' :: 'N' :: 'E' :: 'D' :: t => stripUnsigned t
  | c :: t => c :: stripUnsigned t
  | [] => []

/-- Go `unicode.IsSpace` restricted to the code points relevant here. -/
def goIsSpace (c : Char) : Bool :=
  c = ' ' || c = '\t' || c = '\n' || c = '\x0b' || c = '\x0c' || c = '\r' ||
  c = '\x85' || c = '\xa0'

/-- Go `strings.TrimSpace`. -/
def goTrimSpace (s : List Char) : List Char :=
  ((s.dropWhile goIsSpace).reverse.dropWhile goIsSpace).reverse

/-- The `trim` helper of the source: `TrimLeft "\n"` followed by `TrimSpace`
(the error component of the Go signature is always nil). -/
def goTrimF (s : List Char) : List Char :=
  goTrimSpace (s.dropWhile (fun c => c = '\n'))

/-- Calendar time as delivered by the driver for date-family columns
(the `time.Time` fields used by the Format layouts of the source). -/
structure GoTime where
  year : Nat
  month : Nat
  day : Nat
  hour : Nat
  minute : Nat
  second : Nat
deriving DecidableEq

/-- Dynamic (interface) value of one scanned column, as produced by the
MySQL driver: raw byte text, a native integer, a native time, or a native
boolean. -/
inductive GoValue where
  | bytes (bs : List Char)
  | int (n : Int)
  | time (t : GoTime)
  | bool (b : Bool)
deriving DecidableEq

/-- Decimal digits of a natural number. -/
def natStr (n : Nat) : List Char := (toString n).toList

/-- Zero-pad on the left to width `w` (the behaviour of the fixed-width
Format layouts `2006`, `01`, `02`, `15`, `04`, `05`). -/
def padTo (w : Nat) (s : List Char) : List Char :=
  List.replicate (w - s.length) '0' ++ s

/-- `t.Format "2006-01-02"`. -/
def fmtDate (t : GoTime) : List Char :=
  padTo 4 (natStr t.year) ++ str "-" ++ padTo 2 (natStr t.month) ++ str "-" ++
    padTo 2 (natStr t.day)

/-- `t.Format "2006-01-02 15:04:05"`. -/
def fmtDateTime (t : GoTime) : List Char :=
  fmtDate t ++ str " " ++ padTo 2 (natStr t.hour) ++ str ":" ++
    padTo 2 (natStr t.minute) ++ str ":" ++ padTo 2 (natStr t.second)

/-- `fmt.Sprintf "%d" v`.  Only the native-integer arm is reachable from the
encoder dispatch (the byte arm is intercepted earlier); the verb-mismatch
renderings for the remaining arms follow the `%!d(...)` convention of fmt. -/
def goFmtD : GoValue → List Char
  | .int n => (toString n).toList
  | .bytes bs => str "[" ++ List.intercalate (str " ") (bs.map (fun c => natStr c.toNat)) ++ str "]"
  | .bool b => str "%!d(bool=" ++ (if b then str "true" else str "false") ++ str ")"
  | .time _ => str "%!d(time.Time)"

/-- `fmt.Sprintf "%f" v`.  No arm is reachable from the encoder dispatch with
the value universe of this model (float64 raw values are out of scope); the
renderings follow the `%!f(...)` verb-mismatch convention of fmt. -/
def goFmtF : GoValue → List Char
  | .int n => str "%!f(int64=" ++ (toString n).toList ++ str ")"
  | .bytes _ => str "%!f([]uint8)"
  | .bool b => str "%!f(bool=" ++ (if b then str "true" else str "false") ++ str ")"
  | .time _ => str "%!f(time.Time)"

/-- `fmt.Sprintf "%s" v`: byte text verbatim; verb-mismatch rendering for the
other arms (the zone suffix of the time arm is fixed to UTC in this model). -/
def goFmtS : GoValue → List Char
  | .bytes bs => bs
  | .int n => str "%!s(int64=" ++ (toString n).toList ++ str ")"
  | .bool b => str "%!s(bool=" ++ (if b then str "true" else str "false") ++ str ")"
  | .time t => fmtDateTime t ++ str " +0000 UTC"

/-- One uppercase hexadecimal digit. -/
def hexDigit (n : Nat) : Char :=
  if n < 10 then Char.ofNat (48 + n) else Char.ofNat (55 + n)

/-- Two uppercase hexadecimal digits of one byte. -/
def byteHex (n : Nat) : List Char := [hexDigit (n / 16 % 16), hexDigit (n % 16)]

/-- Uppercase hexadecimal digits of a natural number. -/
def natHex (n : Nat) : List Char := (Nat.toDigits 16 n).map Char.toUpper

/-- `fmt.Sprintf "%X" v`: uppercase hex of the raw bytes (two digits per
byte), or of a native integer. -/
def goFmtX : GoValue → List Char
  | .bytes bs => (bs.map (fun c => byteHex (c.toNat % 256))).flatten
  | .int n => (if n < 0 then str "-" else []) ++ natHex n.natAbs
  | .bool b => str "%!X(bool=" ++ (if b then str "true" else str "false") ++ str ")"
  | .time _ => str "%!X(time.Time)"

/-- Outcome of encoding one column value inside the row loop of
`writeTableData`:
* `lit`: literal text appended to the INSERT statement;
* `staleErr`: the arm executes `return err` while `err` still holds the nil
  result of the preceding successful `Scan` (the DATE/DATETIME/TIMESTAMP/
  TIME/YEAR conversion-failure arms);
* `typeErr`: `return fmt.Errorf("unsupported type: %s", Type)`;
* `panicked`: a failed unchecked type assertion (`col.(bool)`). -/
inductive ColResult where
  | lit (s : List Char)
  | staleErr
  | typeErr (t : List Char)
  | panicked (msg : List Char)
deriving DecidableEq

def intTypes : List (List Char) :=
  [str "TINYINT", str "SMALLINT", str "MEDIUMINT", str "INT", str "INTEGER", str "BIGINT"]

def floatTypes : List (List Char) := [str "FLOAT", str "DOUBLE"]

def decTypes : List (List Char) := [str "DECIMAL", str "DEC"]

def charTypes : List (List Char) :=
  [str "CHAR", str "VARCHAR", str "TINYTEXT", str "TEXT", str "MEDIUMTEXT", str "LONGTEXT"]

def binTypes : List (List Char) :=
  [str "BIT", str "BINARY", str "VARBINARY", str "TINYBLOB", str "BLOB",
   str "MEDIUMBLOB", str "LONGBLOB"]

def enumTypes : List (List Char) := [str "ENUM", str "SET"]

def boolTypes : List (List Char) := [str "BOOL", str "BOOLEAN"]

/-- The type switch of `writeTableData` on the already-normalized type name
`T` (UNSIGNED and blanks removed), for a non-nil column value `v`. -/
def encodeColNorm (T colName : List Char) (flag : Bool) (v : GoValue) : ColResult :=
  if T ∈ intTypes then
    match v with
    | .bytes bs => if flag ∧ colName = str "id" then .lit (str "0") else .lit bs
    | _ => .lit (goFmtD v)
  else if T ∈ floatTypes then
    match v with
    | .bytes bs => .lit bs
    | _ => .lit (goFmtF v)
  else if T ∈ decTypes then .lit (goFmtS v)
  else if T = str "DATE" then
    match v with
    | .time t => .lit ('\'' :: fmtDate t ++ ['\''])
    | _ => .staleErr
  else if T = str "DATETIME" then
    match v with
    | .time t => .lit ('\'' :: fmtDateTime t ++ ['\''])
    | _ => .staleErr
  else if T = str "TIMESTAMP" then
    match v with
    | .time t => .lit ('\'' :: fmtDateTime t ++ ['\''])
    | _ => .staleErr
  else if T = str "TIME" then
    match v with
    | .bytes bs => .lit ('\'' :: bs ++ ['\''])
    | _ => .staleErr
  else if T = str "YEAR" then
    match v with
    | .bytes bs => .lit bs
    | _ => .staleErr
  else if T ∈ charTypes then
    .lit ('\'' :: goReplaceCh '\'' ['\'', '\''] (goFmtS v) ++ ['\''])
  else if T ∈ binTypes then .lit (str "0x" ++ goFmtX v)
  else if T ∈ enumTypes then .lit ('\'' :: goFmtS v ++ ['\''])
  else if T ∈ boolTypes then
    match v with
    | .bool b => .lit (if b then str "true" else str "false")
    | _ => .panicked (str "interface conversion: interface is not bool")
  else if T = str "JSON" then .lit ('\'' :: goFmtS v ++ ['\''])
  else .typeErr T

/-- Literal encoding of one column of a row in `writeTableData`: a nil value
renders `NULL`; otherwise the declared type name is normalized (UNSIGNED and
blanks removed) and dispatched through the type switch. -/
def encodeCol (typeName colName : List Char) (flag : Bool) (col : Option GoValue) :
    ColResult :=
  match col with
  | none => .lit (str "NULL")
  | some v => encodeColNorm (goReplaceCh ' ' [] (stripUnsigned typeName)) colName flag v

/-- Outcome of building one INSERT statement in the row loop:
* `dml`: the statement text handed to the write channel;
* `ret e`: the function returns with Go error value `e` (`none` models a nil
  error, which Go callers read as success);
* `panicked`: a failed unchecked type assertion aborts the process. -/
inductive RowOut where
  | dml (s : List Char)
  | ret (e : Option (List Char))
  | panicked (msg : List Char)
deriving DecidableEq

/-- The per-column loop of `writeTableData`: each column renders its literal
followed by `","` when it is not the last column (`i < len(row)-1`).  A
`staleErr` arm maps to `ret none`: at that point the local `err` variable
still holds the nil result of the successful `Scan`, so `return err` returns
a nil error. -/
def encodeCells (flag : Bool) :
    List (((List Char) × (List Char)) × Option GoValue) → RowOut
  | [] => .dml []
  | (c, v) :: rest =>
    match encodeCol c.1 c.2 flag v with
    | .lit l =>
      let sep : List Char := if rest = [] then [] else [',']
      match encodeCells flag rest with
      | .dml r => .dml (l ++ sep ++ r)
      | x => x
    | .staleErr => .ret none
    | .typeErr t => .ret (some (str "unsupported type: " ++ t))
    | .panicked m => .panicked m

/-- One iteration of the row loop of `writeTableData`: build
`INSERT INTO ` ++ table ++ ` VALUES (` ++ cells ++ `);\n`.
`cols` pairs each column type name with its column name, positionally
aligned with the scanned row values. -/
def encodeRowGo (table : List Char) (cols : List ((List Char) × (List Char)))
    (flag : Bool) (vals : List (Option GoValue)) : RowOut :=
  match encodeCells flag (cols.zip vals) with
  | .dml body => .dml (str "INSERT INTO `" ++ table ++ str "` VALUES (" ++ body ++ str ");\n")
  | x => x

/-- Final outcome of the row loop: the function returned with Go error `e`
(`none` models nil), or the goroutine panicked. -/
inductive DumpOut where
  | fin (e : Option (List Char))
  | panicked (m : List Char)
deriving DecidableEq

/-- The row loop of `writeTableData` over the scanned rows: yields the list
of statements sent to the write channel and the final outcome.  An aborting
row stops the loop immediately and its statement is not sent. -/
def dumpRows (table : List Char) (cols : List ((List Char) × (List Char)))
    (flag : Bool) : List (List (Option GoValue)) → (List (List Char)) × DumpOut
  | [] => ([], .fin none)
  | r :: rs =>
    match encodeRowGo table cols flag r with
    | .dml d =>
      let p := dumpRows table cols flag rs
      (d :: p.1, p.2)
    | .ret e => ([], .fin e)
    | .panicked m => ([], .panicked m)

/-- The accumulator loop of `mergeInsert` over `insertSQLs[1:]`, carrying the
total input length `n` and the running slice index `i` of the Go
`for i, insertSQL := range insertSQLs[1:]`. -/
def mergeTail (n : Nat) : Nat → List (List Char) → List Char → Except (List Char) (List Char)
  | _, [], acc => .ok (acc ++ str ";")
  | i, s :: t, acc =>
    let acc1 := if i < n - 1 then acc ++ str "," else acc
    match goIndex s (str "VALUES") with
    | none => .error (str "invalid SQL: missing VALUES keyword")
    | some idx =>
        mergeTail n (i + 1) t
          (acc1 ++ goTrimSuf (goTrimPre (List.drop idx s) (str "VALUES")) (str ";"))

/-- `mergeInsert` of the source: fold consecutive single-row INSERT
statements into one multi-row INSERT. -/
def mergeInsert : List (List Char) → Except (List Char) (List Char)
  | [] => .error (str "no input provided")
  | s0 :: rest => mergeTail (rest.length + 1) 0 rest (goTrimSuf s0 (str ";"))

/-- The value-tuple text that `mergeInsert` appends for a subsequent
statement: the text from the `VALUES` token onward, with the `VALUES` token
and the trailing `;` stripped. -/
def valuesTuple (s : List Char) : List Char :=
  match goIndex s (str "VALUES") with
  | some idx => goTrimSuf (goTrimPre (List.drop idx s) (str "VALUES")) (str ";")
  | none => []

/-- The inner merge loop of `Source`: pull up to `n` more `;`-chunks while
each trims to a statement beginning with `INSERT INTO`; stop early on
end-of-stream, or on a non-matching statement, which is consumed and
discarded (not re-queued).  Returns the collected statements (in order,
after the already-collected `acc`) and the remaining chunks. -/
def pullInserts : Nat → List (List Char) → List (List Char) →
    (List (List Char)) × (List (List Char))
  | 0, chunks, acc => (acc.reverse, chunks)
  | _ + 1, [], acc => (acc.reverse, [])
  | n + 1, c :: cs, acc =>
    if goHasPre (goTrimF c) (str "INSERT INTO") then
      pullInserts n cs (goTrimF c :: acc)
    else (acc.reverse, cs)

/-- The statement loop of `Source` over the `;`-delimited chunks of the
input stream.  `ex stmt` is the outcome of `dbWrapper.Exec stmt` (`none` for
success, `some e` for a failing execution).  Returns the list of statements
passed to Exec by the loop, in order, and the error returned by the loop
(`none` on normal completion).  The `fuel` argument makes the recursion
structural; every iteration consumes at least the head chunk, so the wrapper
`sourceLoop` below supplies `chunks.length`, which always suffices, and the
zero-fuel arm is unreachable from the wrapper. -/
def sourceLoopF (ex : List Char → Option (List Char)) (mergeN : Nat) :
    Nat → List (List Char) → (List (List Char)) × Option (List Char)
  | _, [] => ([], none)
  | 0, _ :: _ => ([], none)
  | fuel + 1, c :: cs =>
    let dml := goTrimF c
    if 1 < mergeN ∧ goHasPre dml (str "INSERT INTO") = true then
      let pr := pullInserts (mergeN - 1) cs [dml]
      match mergeInsert pr.1 with
      | .error e => ([], some e)
      | .ok merged =>
        match ex merged with
        | some e => ([merged], some e)
        | none =>
          let r := sourceLoopF ex mergeN fuel pr.2
          (merged :: r.1, r.2)
    else
      match ex dml with
      | some e => ([dml], some e)
      | none =>
        let r := sourceLoopF ex mergeN fuel cs
        (dml :: r.1, r.2)

/-- The statement loop of `Source` (see `sourceLoopF`). -/
def sourceLoop (ex : List Char → Option (List Char)) (mergeN : Nat)
    (chunks : List (List Char)) : (List (List Char)) × Option (List Char) :=
  sourceLoopF ex mergeN chunks.length chunks

/-- The replayer `Source`, from the point where the connection is open:
exec `USE <db>;`, exec `SET autocommit=0;`, run the statement loop, then on
normal completion exec `COMMIT;` and `SET autocommit=1;`.  Returns the full
ordered list of statements passed to Exec and the returned error. -/
def sourceRun (ex : List Char → Option (List Char)) (mergeN : Nat) (db : List Char)
    (chunks : List (List Char)) : (List (List Char)) × Option (List Char) :=
  match ex (str "USE " ++ db ++ str ";") with
  | some e => ([str "USE " ++ db ++ str ";"], some e)
  | none =>
    match ex (str "SET autocommit=0;") with
    | some e => ([str "USE " ++ db ++ str ";", str "SET autocommit=0;"], some e)
    | none =>
      match (sourceLoop ex mergeN chunks).2 with
      | some e =>
          ((str "USE " ++ db ++ str ";") :: str "SET autocommit=0;" ::
            (sourceLoop ex mergeN chunks).1, some e)
      | none =>
        match ex (str "COMMIT;") with
        | some e =>
            ((str "USE " ++ db ++ str ";") :: str "SET autocommit=0;" ::
              ((sourceLoop ex mergeN chunks).1 ++ [str "COMMIT;"]), some e)
        | none =>
          match ex (str "SET autocommit=1;") with
          | some e =>
              ((str "USE " ++ db ++ str ";") :: str "SET autocommit=0;" ::
                ((sourceLoop ex mergeN chunks).1 ++
                  [str "COMMIT;", str "SET autocommit=1;"]), some e)
          | none =>
              ((str "USE " ++ db ++ str ";") :: str "SET autocommit=0;" ::
                ((sourceLoop ex mergeN chunks).1 ++
                  [str "COMMIT;", str "SET autocommit=1;"]), none)

/-- State of the streaming row writer of `writeTableData` / `writeViaBuf`:
the producer (row loop) with its pending statements and done flag, the two
capacity-1 channels (`writeCh`, `done`), and the consumer goroutine with the
list of statements it has written to the sink and its flush flag. -/
structure WState where
  toSend : List (List Char)
  sentDone : Bool
  chData : Option (List Char)
  chDone : Bool
  consEnd : Bool
  written : List (List Char)
  flushed : Bool
deriving DecidableEq

/-- Small-step semantics of the two-goroutine writer.  The producer buffers
a statement into the capacity-1 data channel (`writeCh <- dml`), then after
the loop buffers the empty struct into the capacity-1 done channel.  The
consumer selects between the two channels: when both are ready Go chooses
either branch, so both `recvData` and `recvDone` are enabled. -/
inductive WStep : WState → WState → Prop
  | sendData (s : WState) (d : List Char) (rest : List (List Char))
      (h1 : s.toSend = d :: rest) (h2 : s.chData = none) :
      WStep s ⟨rest, s.sentDone, some d, s.chDone, s.consEnd, s.written, s.flushed⟩
  | sendDone (s : WState)
      (h1 : s.toSend = []) (h2 : s.sentDone = false) (h3 : s.chDone = false) :
      WStep s ⟨[], true, s.chData, true, s.consEnd, s.written, s.flushed⟩
  | recvData (s : WState) (d : List Char)
      (h1 : s.consEnd = false) (h2 : s.chData = some d) :
      WStep s ⟨s.toSend, s.sentDone, none, s.chDone, false, s.written ++ [d], s.flushed⟩
  | recvDone (s : WState)
      (h1 : s.consEnd = false) (h2 : s.chDone = true) :
      WStep s ⟨s.toSend, s.sentDone, s.chData, false, true, s.written, true⟩

/-- Initial writer state for a table dump with the given formatted rows. -/
def initW (stmts : List (List Char)) : WState :=
  ⟨stmts, false, none, false, false, [], false⟩

/-- Collapse doubled single quotes, the inverse step of SQL string-literal
escaping. -/
def collapseQuotes : List Char → List Char
  | [] => []
  | [c] => [c]
  | c1 :: c2 :: t =>
    if c1 = '\'' ∧ c2 = '\'' then '\'' :: collapseQuotes t
    else c1 :: collapseQuotes (c2 :: t)

/-- Modelled from the spec: parsing an SQL string literal (the grammar of
section 8) — strip the outer single quotes and collapse doubled single
quotes; anything not wrapped in single quotes is not a string literal. -/
def sqlLitRead (lit : List Char) : Option (List Char) :=
  match lit with
  | '\'' :: rest =>
    match rest.getLast? with
    | some '\'' => some (collapseQuotes rest.dropLast)
    | _ => none
  | _ => none

/-! ### Helper lemmas -/

theorem replace_quote_nil (t : List Char)
    (h : goReplaceCh '\'' ['\'', '\''] t = []) : t = [] := by
  cases t with
  | nil => rfl
  | cons c r => by_cases hc : c = '\'' <;> simp [goReplaceCh, hc] at h

theorem collapse_replace (s : List Char) :
    collapseQuotes (goReplaceCh '\'' ['\'', '\''] s) = s := by
  induction s with
  | nil => rfl
  | cons c t ih =>
    by_cases hc : c = '\''
    · subst hc
      simp [goReplaceCh, collapseQuotes, ih]
    · cases hR : goReplaceCh '\'' ['\'', '\''] t with
      | nil =>
        have ht : t = [] := replace_quote_nil t hR
        subst ht
        simp [goReplaceCh, hc, collapseQuotes]
      | cons d r =>
        have h1 : goReplaceCh '\'' ['\'', '\''] (c :: t) =
            c :: goReplaceCh '\'' ['\'', '\''] t := by simp [goReplaceCh, hc]
        rw [h1, hR]
        have h2 : collapseQuotes (c :: d :: r) = c :: collapseQuotes (d :: r) := by
          simp [collapseQuotes, hc]
        rw [h2, ← hR, ih]

theorem encodeColNorm_int (T : List Char) (hT : T ∈ intTypes)
    (name : List Char) (flag : Bool) :
    (∀ bs, encodeColNorm T name flag (.bytes bs) =
        if flag ∧ name = str "id" then .lit (str "0") else .lit bs)
  ∧ (∀ n : Int, encodeColNorm T name flag (.int n) = .lit (goFmtD (.int n))) := by
  simp only [intTypes, List.mem_cons, List.not_mem_nil, or_false] at hT
  rcases hT with rfl | rfl | rfl | rfl | rfl | rfl <;>
    exact ⟨fun bs => rfl, fun n => rfl⟩

theorem encodeColNorm_char (T : List Char) (hT : T ∈ charTypes)
    (name : List Char) (flag : Bool) (v : GoValue) :
    encodeColNorm T name flag v =
      .lit ('\'' :: goReplaceCh '\'' ['\'', '\''] (goFmtS v) ++ ['\'']) := by
  simp only [charTypes, str, List.mem_cons, List.not_mem_nil, or_false] at hT
  rcases hT with rfl | rfl | rfl | rfl | rfl | rfl <;> rfl

theorem mergeTail_ok (rest : List (List Char)) :
    ∀ (n i : Nat) (acc : List Char),
      (∀ s ∈ rest, (goIndex s (str "VALUES")).isSome) →
      i + rest.length < n →
      mergeTail n i rest acc =
        .ok (acc ++ (rest.map (fun s => ',' :: valuesTuple s)).flatten ++ str ";") := by
  induction rest with
  | nil => intro n i acc _ _; simp [mergeTail]
  | cons s t ih =>
    intro n i acc hall hlt
    obtain ⟨idx, hidx⟩ := Option.isSome_iff_exists.mp (hall s (by simp))
    have hlt' : i + (t.length + 1) < n := by simpa using hlt
    have hi : i < n - 1 := by omega
    have h1 : mergeTail n i (s :: t) acc =
        mergeTail n (i + 1) t
          ((acc ++ str ",") ++
            goTrimSuf (goTrimPre (List.drop idx s) (str "VALUES")) (str ";")) := by
      simp [mergeTail, hi, hidx]
    rw [h1, ih n (i + 1) _ (fun x hx => hall x (by simp [hx])) (by omega)]
    have hvt : (',' : Char) :: valuesTuple s =
        str "," ++ goTrimSuf (goTrimPre (List.drop idx s) (str "VALUES")) (str ";") := by
      unfold valuesTuple
      rw [hidx]
      rfl
    simp [hvt, List.append_assoc]

theorem mergeTail_missing (rest : List (List Char)) :
    ∀ (n i : Nat) (acc : List Char),
      (∃ s ∈ rest, goIndex s (str "VALUES") = none) →
      mergeTail n i rest acc = .error (str "invalid SQL: missing VALUES keyword") := by
  induction rest with
  | nil => intro n i acc h; simp at h
  | cons s t ih =>
    intro n i acc h
    cases hidx : goIndex s (str "VALUES") with
    | none => simp [mergeTail, hidx]
    | some idx =>
      obtain ⟨x, hx, hxn⟩ := h
      rw [List.mem_cons] at hx
      rcases hx with rfl | hx
      · rw [hidx] at hxn; exact Option.noConfusion hxn
      · have h1 : mergeTail n i (s :: t) acc =
            mergeTail n (i + 1) t
              ((if i < n - 1 then acc ++ str "," else acc) ++
                goTrimSuf (goTrimPre (List.drop idx s) (str "VALUES")) (str ";")) := by
          simp [mergeTail, hidx]
        rw [h1]
        exact ih n (i + 1) _ ⟨x, hx, hxn⟩

theorem pullInserts_spec (n : Nat) :
    ∀ (cs acc : List (List Char)),
      ∃ taken dropped rest,
        cs = taken ++ dropped ++ rest
        ∧ taken.length ≤ n
        ∧ (∀ s ∈ taken, goHasPre (goTrimF s) (str "INSERT INTO") = true)
        ∧ pullInserts n cs acc = (acc.reverse ++ taken.map goTrimF, rest)
        ∧ ((dropped = [] ∧ (taken.length = n ∨ rest = []))
           ∨ ∃ d, dropped = [d]
               ∧ goHasPre (goTrimF d) (str "INSERT INTO") = false
               ∧ taken.length < n) := by
  induction n with
  | zero =>
    intro cs acc
    exact ⟨[], [], cs, by simp, by simp, by simp, by simp [pullInserts],
      Or.inl ⟨rfl, Or.inl rfl⟩⟩
  | succ n ih =>
    intro cs acc
    cases cs with
    | nil =>
      exact ⟨[], [], [], by simp, by simp, by simp, by simp [pullInserts],
        Or.inl ⟨rfl, Or.inr rfl⟩⟩
    | cons c cs =>
      cases hpre : goHasPre (goTrimF c) (str "INSERT INTO") with
      | true =>
        obtain ⟨taken, dropped, rest, hdec, hlen, hall, hres, hstop⟩ :=
          ih cs (goTrimF c :: acc)
        refine ⟨c :: taken, dropped, rest, by simp [hdec], by simpa using hlen, ?_, ?_, ?_⟩
        · intro s hs
          rw [List.mem_cons] at hs
          rcases hs with rfl | hs
          · exact hpre
          · exact hall s hs
        · rw [show pullInserts (n + 1) (c :: cs) acc = pullInserts n cs (goTrimF c :: acc) by
            simp [pullInserts, hpre]]
          rw [hres]
          simp
        · rcases hstop with ⟨h1, h2⟩ | ⟨d, h1, h2, h3⟩
          · refine Or.inl ⟨h1, ?_⟩
            rcases h2 with h2 | h2
            · exact Or.inl (by simp [h2])
            · exact Or.inr h2
          · exact Or.inr ⟨d, h1, h2, by simpa using h3⟩
      | false =>
        exact ⟨[], [c], cs, by simp, by simp, by simp, by simp [pullInserts, hpre],
          Or.inr ⟨c, rfl, hpre, by simp⟩⟩

/-! ### Claim theorems -/

/-- Claim C1, counterexample: with the zero-primary-key flag set and column
name exactly `id`, an INT value arriving as a native integer renders its
decimal text `5`, not `0`, while the same value arriving as raw byte text
renders `0` — so the two representations do not render identically and the
literal is not always `0`. -/
theorem C1_counterexample :
    encodeCol (str "INT") (str "id") true (some (GoValue.int 5)) = ColResult.lit (str "5")
  ∧ ColResult.lit (str "5") ≠ ColResult.lit (str "0")
  ∧ encodeCol (str "INT") (str "id") true (some (GoValue.bytes (str "5"))) =
      ColResult.lit (str "0") := by
  refine ⟨rfl, by decide, rfl⟩

/-- Claim C1, amended: for integer-family columns (after stripping UNSIGNED
and blanks), the zero-primary-key rewrite to `0` applies only when the raw
value arrives as raw byte text; a native-integer raw value bypasses the check
and always renders its decimal text; the two representations render the same
literal whenever the flag is unset or the column is not named `id`. -/
theorem C1_amended (T name : List Char) (flag : Bool)
    (hT : goReplaceCh ' ' [] (stripUnsigned T) ∈ intTypes) :
    (∀ bs, flag = true → name = str "id" →
        encodeCol T name flag (some (GoValue.bytes bs)) = ColResult.lit (str "0"))
  ∧ (∀ n : Int, encodeCol T name flag (some (GoValue.int n)) =
        ColResult.lit (str (toString n)))
  ∧ ((flag = false ∨ name ≠ str "id") →
      ∀ n : Int, encodeCol T name flag (some (GoValue.bytes (str (toString n)))) =
        encodeCol T name flag (some (GoValue.int n))) := by
  obtain ⟨hbytes, hint⟩ := encodeColNorm_int _ hT name flag
  refine ⟨?_, ?_, ?_⟩
  · intro bs hf hn
    show encodeColNorm (goReplaceCh ' ' [] (stripUnsigned T)) name flag (GoValue.bytes bs) = _
    rw [hbytes bs, if_pos ⟨hf, hn⟩]
  · intro n
    show encodeColNorm (goReplaceCh ' ' [] (stripUnsigned T)) name flag (GoValue.int n) = _
    rw [hint n]
    rfl
  · intro h n
    have hcond : ¬(flag = true ∧ name = str "id") := by
      rcases h with h | h
      · intro hc; rw [h] at hc; exact Bool.false_ne_true hc.1
      · intro hc; exact h hc.2
    show encodeColNorm (goReplaceCh ' ' [] (stripUnsigned T)) name flag
          (GoValue.bytes (str (toString n))) =
        encodeColNorm (goReplaceCh ' ' [] (stripUnsigned T)) name flag (GoValue.int n)
    rw [hbytes (str (toString n)), hint n, if_neg hcond]
    rfl

/-- Witness for C1_amended at the concrete type name `INT UNSIGNED` (whose
normalization is `INT`), column `id`, flag set. -/
theorem C1_amended_witness :
    (goReplaceCh ' ' [] (stripUnsigned (str "INT UNSIGNED")) ∈ intTypes)
  ∧ ((∀ bs, true = true → str "id" = str "id" →
        encodeCol (str "INT UNSIGNED") (str "id") true (some (GoValue.bytes bs)) =
          ColResult.lit (str "0"))
    ∧ (∀ n : Int, encodeCol (str "INT UNSIGNED") (str "id") true (some (GoValue.int n)) =
          ColResult.lit (str (toString n)))
    ∧ ((true = false ∨ str "id" ≠ str "id") →
        ∀ n : Int,
          encodeCol (str "INT UNSIGNED") (str "id") true
              (some (GoValue.bytes (str (toString n)))) =
            encodeCol (str "INT UNSIGNED") (str "id") true (some (GoValue.int n)))) :=
  ⟨by decide, C1_amended (str "INT UNSIGNED") (str "id") true (by decide)⟩

/-- Claim C2 (code bug): a DATE column whose scanned raw value is byte text
rather than a native time hits the conversion-failure arm, which executes
`return err` while `err` still holds the nil result of the successful Scan —
so the table dump aborts (the row is never sent) yet the caller receives a
nil error.  This contradicts the claim that every failure returns a non-nil
error. -/
theorem C2_date_mismatch_nil_error :
    dumpRows (str "t") [(str "DATE", str "d")] false
        [[some (GoValue.bytes (str "2020-01-01"))]]
      = ([], DumpOut.fin none) := rfl

/-- Claim C3 (code bug): in the two-channel writer, from the initial state
with one formatted row, the producer can buffer the row into the data
channel and then buffer the done signal; the consumer `select` then has both
channels ready and may take the done branch, flushing and terminating while
the row is still in the data channel.  The reached state has the consumer
terminated with the flush performed (`flushed = true`, `consEnd = true`) and
the written list empty while the sent statement still sits unread in the
data channel — and no rule of `WStep` can fire in it (the producer is done
and the consumer has returned), so the statement is lost.  This refutes the
claimed write-before-flush guarantee. -/
theorem C3_flush_race :
    Relation.ReflTransGen WStep (initW [str "INSERT INTO `t` VALUES (1);"])
      ⟨[], true, some (str "INSERT INTO `t` VALUES (1);"), false, true, [], true⟩ := by
  refine Relation.ReflTransGen.head (WStep.sendData _ _ _ rfl rfl) ?_
  refine Relation.ReflTransGen.head (WStep.sendDone _ rfl rfl rfl) ?_
  exact Relation.ReflTransGen.head (WStep.recvDone _ rfl rfl) Relation.ReflTransGen.refl

/-- Claim C4: for a non-empty sequence of statements each of whose tail
members contains the token `VALUES`, `mergeInsert` keeps the first statement
with its trailing `;` dropped, appends for each subsequent statement a comma
followed by its value tuple (the text from its `VALUES` token onward with
the `VALUES` token and trailing `;` stripped), in original order, and ends
with a final `;`. -/
theorem C4_merge_shape (s0 : List Char) (rest : List (List Char))
    (h : ∀ s ∈ rest, (goIndex s (str "VALUES")).isSome) :
    mergeInsert (s0 :: rest) =
      .ok (goTrimSuf s0 (str ";") ++
        (rest.map (fun s => ',' :: valuesTuple s)).flatten ++ str ";") := by
  show mergeTail (rest.length + 1) 0 rest (goTrimSuf s0 (str ";")) = _
  exact mergeTail_ok rest (rest.length + 1) 0 _ h (by simp)

/-- Witness for C4_merge_shape on the two-row scenario. -/
theorem C4_merge_shape_witness :
    (∀ s ∈ [str "INSERT INTO `t` VALUES (2,y);"], (goIndex s (str "VALUES")).isSome)
  ∧ mergeInsert [str "INSERT INTO `t` VALUES (1,x);", str "INSERT INTO `t` VALUES (2,y);"] =
      .ok (goTrimSuf (str "INSERT INTO `t` VALUES (1,x);") (str ";") ++
        (([str "INSERT INTO `t` VALUES (2,y);"]).map (fun s => ',' :: valuesTuple s)).flatten ++
        str ";") :=
  ⟨by decide,
   C4_merge_shape (str "INSERT INTO `t` VALUES (1,x);")
     [str "INSERT INTO `t` VALUES (2,y);"] (by decide)⟩

/-- Claim C5: whenever the replayer completes normally, the executed
statement trace opens with `USE <db>;` and `SET autocommit=0;` before any
stream statement, and closes with `COMMIT;` followed by `SET autocommit=1;`,
in that order — one transaction spans the whole stream. -/
theorem C5_single_transaction (ex : List Char → Option (List Char)) (mergeN : Nat)
    (db : List Char) (chunks : List (List Char)) (t : List (List Char))
    (h : sourceRun ex mergeN db chunks = (t, none)) :
    t = (str "USE " ++ db ++ str ";") :: str "SET autocommit=0;" ::
        ((sourceLoop ex mergeN chunks).1 ++ [str "COMMIT;", str "SET autocommit=1;"]) := by
  unfold sourceRun at h
  repeat' split at h
  all_goals simp_all

/-- Witness for C5_single_transaction on the empty stream with an
always-succeeding connection. -/
theorem C5_single_transaction_witness :
    sourceRun (fun _ => none) 0 (str "d") [] =
      ([str "USE d;", str "SET autocommit=0;", str "COMMIT;", str "SET autocommit=1;"], none)
  ∧ [str "USE d;", str "SET autocommit=0;", str "COMMIT;", str "SET autocommit=1;"] =
      (str "USE " ++ str "d" ++ str ";") :: str "SET autocommit=0;" ::
        ((sourceLoop (fun _ => none) 0 []).1 ++ [str "COMMIT;", str "SET autocommit=1;"]) :=
  ⟨rfl, C5_single_transaction (fun _ => none) 0 (str "d") [] _ rfl⟩

/-- Claim C6: when a statement of the stream fails to execute, the replayer
returns that error and the executed trace is exactly the prefix statements
plus the loop trace — no `COMMIT;`, no `ROLLBACK;`, and no
`SET autocommit=1;` is issued afterward. -/
theorem C6_no_commit_after_failure (ex : List Char → Option (List Char)) (mergeN : Nat)
    (db : List Char) (chunks : List (List Char)) (e : List Char)
    (hUse : ex (str "USE " ++ db ++ str ";") = none)
    (hAc : ex (str "SET autocommit=0;") = none)
    (hLoop : (sourceLoop ex mergeN chunks).2 = some e) :
    sourceRun ex mergeN db chunks =
      ((str "USE " ++ db ++ str ";") :: str "SET autocommit=0;" ::
        (sourceLoop ex mergeN chunks).1, some e) := by
  unfold sourceRun
  rw [hUse, hAc, hLoop]

/-- Witness for C6_no_commit_after_failure with a stream whose single
statement fails. -/
theorem C6_no_commit_after_failure_witness :
    ((fun s => if s = str "FAIL;" then some (str "boom") else none)
        (str "USE " ++ str "d" ++ str ";") = none)
  ∧ ((fun s => if s = str "FAIL;" then some (str "boom") else none)
        (str "SET autocommit=0;") = none)
  ∧ ((sourceLoop (fun s => if s = str "FAIL;" then some (str "boom") else none)
        0 [str "FAIL;"]).2 = some (str "boom"))
  ∧ sourceRun (fun s => if s = str "FAIL;" then some (str "boom") else none)
        0 (str "d") [str "FAIL;"] =
      ((str "USE " ++ str "d" ++ str ";") :: str "SET autocommit=0;" ::
        (sourceLoop (fun s => if s = str "FAIL;" then some (str "boom") else none)
          0 [str "FAIL;"]).1, some (str "boom")) :=
  ⟨by decide, by decide, by decide,
   C6_no_commit_after_failure (fun s => if s = str "FAIL;" then some (str "boom") else none)
     0 (str "d") [str "FAIL;"] (str "boom") (by decide) (by decide) (by decide)⟩

/-- Claim C7: with merge batch size N > 1 and an INSERT-prefixed head
statement, the inner pull collects at most N−1 further statements, all
INSERT-prefixed, stopping at the batch bound, at end-of-stream, or at the
first non-INSERT statement; in the last case that statement is consumed and
dropped (it is absent from the remaining chunks the loop continues on). -/
theorem C7_greedy_pull (mergeN : Nat) (hN : 1 < mergeN) (first : List Char)
    (cs : List (List Char)) :
    ∃ taken dropped rest,
      cs = taken ++ dropped ++ rest
      ∧ taken.length ≤ mergeN - 1
      ∧ (∀ s ∈ taken, goHasPre (goTrimF s) (str "INSERT INTO") = true)
      ∧ pullInserts (mergeN - 1) cs [first] = (first :: taken.map goTrimF, rest)
      ∧ ((dropped = [] ∧ (taken.length = mergeN - 1 ∨ rest = []))
         ∨ ∃ d, dropped = [d]
             ∧ goHasPre (goTrimF d) (str "INSERT INTO") = false
             ∧ taken.length < mergeN - 1) := by
  obtain ⟨taken, dropped, rest, h1, h2, h3, h4, h5⟩ :=
    pullInserts_spec (mergeN - 1) cs [first]
  exact ⟨taken, dropped, rest, h1, h2, h3, by simpa using h4, h5⟩

/-- Witness for C7_greedy_pull: batch size 2, next chunk not an INSERT. -/
theorem C7_greedy_pull_witness :
    1 < 2
  ∧ ∃ taken dropped rest,
      [str "UPDATE t;"] = taken ++ dropped ++ rest
      ∧ taken.length ≤ 2 - 1
      ∧ (∀ s ∈ taken, goHasPre (goTrimF s) (str "INSERT INTO") = true)
      ∧ pullInserts (2 - 1) [str "UPDATE t;"] [str "X"] =
          (str "X" :: taken.map goTrimF, rest)
      ∧ ((dropped = [] ∧ (taken.length = 2 - 1 ∨ rest = []))
         ∨ ∃ d, dropped = [d]
             ∧ goHasPre (goTrimF d) (str "INSERT INTO") = false
             ∧ taken.length < 2 - 1) :=
  ⟨by decide, C7_greedy_pull 2 (by decide) (str "X") [str "UPDATE t;"]⟩

/-- Claim C8, counterexample: the first statement is never checked for the
`VALUES` token — `mergeInsert` on a singleton statement lacking `VALUES`
succeeds instead of failing with an error. -/
theorem C8_counterexample :
    goIndex (str "INSERT INTO t (1);") (str "VALUES") = none
  ∧ mergeInsert [str "INSERT INTO t (1);"] = .ok (str "INSERT INTO t (1);") :=
  ⟨by decide, rfl⟩

/-- Claim C8, amended: `mergeInsert []` fails with an explicit error, and
`mergeInsert` fails with an explicit error when a statement other than the
first lacks the token `VALUES`; the first statement is never checked. -/
theorem C8_amended_failures :
    mergeInsert [] = .error (str "no input provided")
  ∧ ∀ (s0 : List Char) (rest : List (List Char)),
      (∃ s ∈ rest, goIndex s (str "VALUES") = none) →
      mergeInsert (s0 :: rest) = .error (str "invalid SQL: missing VALUES keyword") := by
  refine ⟨rfl, ?_⟩
  intro s0 rest h
  exact mergeTail_missing rest (rest.length + 1) 0 _ h

/-- Witness for the error branch of C8_amended_failures. -/
theorem C8_amended_failures_witness :
    (∃ s ∈ [str "DELETE FROM t;"], goIndex s (str "VALUES") = none)
  ∧ mergeInsert [str "INSERT INTO t VALUES (1);", str "DELETE FROM t;"] =
      .error (str "invalid SQL: missing VALUES keyword") :=
  ⟨by decide,
   C8_amended_failures.2 (str "INSERT INTO t VALUES (1);") [str "DELETE FROM t;"] (by decide)⟩

/-- Claim C9: a character-family column value arriving as byte text `s` is
encoded by wrapping in single quotes and doubling each embedded single
quote, and parsing that literal back as an SQL string literal (strip outer
quotes, collapse doubled quotes) yields exactly `s`. -/
theorem C9_string_round_trip (T name s : List Char) (flag : Bool)
    (hT : goReplaceCh ' ' [] (stripUnsigned T) ∈ charTypes) :
    encodeCol T name flag (some (GoValue.bytes s)) =
        ColResult.lit ('\'' :: goReplaceCh '\'' ['\'', '\''] s ++ ['\''])
  ∧ sqlLitRead ('\'' :: goReplaceCh '\'' ['\'', '\''] s ++ ['\'']) = some s := by
  constructor
  · exact encodeColNorm_char _ hT name flag (GoValue.bytes s)
  · have hlast : (goReplaceCh '\'' ['\'', '\''] s ++ ['\'']).getLast? = some '\'' :=
      List.getLast?_concat _
    have hdrop : (goReplaceCh '\'' ['\'', '\''] s ++ ['\'']).dropLast =
        goReplaceCh '\'' ['\'', '\''] s := List.dropLast_concat
    show sqlLitRead ('\'' :: (goReplaceCh '\'' ['\'', '\''] s ++ ['\''])) = some s
    have h1 : sqlLitRead ('\'' :: (goReplaceCh '\'' ['\'', '\''] s ++ ['\''])) =
        match (goReplaceCh '\'' ['\'', '\''] s ++ ['\'']).getLast? with
        | some '\'' => some (collapseQuotes (goReplaceCh '\'' ['\'', '\''] s ++ ['\'']).dropLast)
        | _ => none := rfl
    rw [h1, hlast, hdrop, collapse_replace]
    rfl

/-- Witness for C9_string_round_trip at type VARCHAR and a string holding a
single quote. -/
theorem C9_string_round_trip_witness :
    (goReplaceCh ' ' [] (stripUnsigned (str "VARCHAR")) ∈ charTypes)
  ∧ (encodeCol (str "VARCHAR") (str "n") false (some (GoValue.bytes ['a', '\'', 'b'])) =
        ColResult.lit ('\'' :: goReplaceCh '\'' ['\'', '\''] ['a', '\'', 'b'] ++ ['\''])
    ∧ sqlLitRead ('\'' :: goReplaceCh '\'' ['\'', '\''] ['a', '\'', 'b'] ++ ['\'']) =
        some ['a', '\'', 'b']) :=
  ⟨by decide, C9_string_round_trip (str "VARCHAR") (str "n") ['a', '\'', 'b'] false (by decide)⟩

/-- Claim C10: for BOOL/BOOLEAN columns the encoder performs an unchecked
type assertion `col.(bool)`: any non-nil raw value of a different dynamic
type panics rather than producing an unsupported-type or conversion error. -/
theorem C10_bool_assertion_panics (T name : List Char) (flag : Bool) (v : GoValue)
    (hT : T = str "BOOL" ∨ T = str "BOOLEAN")
    (hv : ∀ b, v ≠ GoValue.bool b) :
    encodeCol T name flag (some v) =
      ColResult.panicked (str "interface conversion: interface is not bool") := by
  rcases hT with rfl | rfl <;> cases v <;>
    first
      | rfl
      | exact absurd rfl (hv _)

/-- Witness for C10_bool_assertion_panics: a BOOL column whose raw value is
byte text. -/
theorem C10_bool_assertion_panics_witness :
    (str "BOOL" = str "BOOL" ∨ str "BOOL" = str "BOOLEAN")
  ∧ (∀ b, GoValue.bytes (str "1") ≠ GoValue.bool b)
  ∧ encodeCol (str "BOOL") (str "x") false (some (GoValue.bytes (str "1"))) =
      ColResult.panicked (str "interface conversion: interface is not bool") :=
  ⟨Or.inl rfl, by decide,
   C10_bool_assertion_panics (str "BOOL") (str "x") false (GoValue.bytes (str "1"))
     (Or.inl rfl) (by decide)⟩

end Mysqldump
